import Mathlib

/-!
Shallow embedding of the RPi-Edge-vs-Local target-selection and actuation
pipeline: the gimbal wire protocol of scripts/rpi/test.py (crc16_xmodem,
build_packet, parse_packet, request_attitude, set_angles_with_ack) and the
virtual-PTZ state machine of source/vision/ptz.py (PTZPipeline), together
with the tracker fallback of scripts/rpi/yolo_tracker.py
(YoloTracker.get_primary_target).  Bytes are Nat values below 256, byte
strings are List Nat, Python floats are modelled as exact rationals, and
machine truncation and wrap-around are explicit.
-/

namespace RPiEdge

/-- One shift of the inner loop of crc16_xmodem (test.py): shift left inside
16 bits, xor with the polynomial 0x1021 when bit 15 was set. -/
def crcShift (crc : Nat) : Nat :=
  if crc &&& 0x8000 ≠ 0 then ((crc <<< 1) &&& 0xFFFF) ^^^ 0x1021
  else (crc <<< 1) &&& 0xFFFF

/-- One byte of crc16_xmodem: `crc ^= (b << 8) & 0xFFFF`, then eight shifts. -/
def crcByte (crc b : Nat) : Nat := crcShift^[8] (crc ^^^ ((b <<< 8) &&& 0xFFFF))

/-- crc16_xmodem of test.py: fold crcByte over the data, seeded with
`init & 0xFFFF`, with a final `& 0xFFFF`. -/
def crc16_xmodem (data : List Nat) (init : Nat) : Nat :=
  (data.foldl crcByte (init &&& 0xFFFF)) &&& 0xFFFF

/-- struct.pack "<H": the two little-endian bytes of a 16-bit value. -/
def pack16 (n : Nat) : List Nat := [n % 256, n / 256 % 256]

/-- struct.unpack "<H" of two bytes (low byte first). -/
def le16 (lo hi : Nat) : Nat := lo + 256 * hi

/-- The fixed sync marker b"\x55\x66". -/
def STX : List Nat := [0x55, 0x66]

/-- build_packet of test.py: STX, ctrl (bit0 = need_ack), little-endian
payload length and sequence, command id, payload, then the CRC computed
over everything before it. -/
def build_packet (cmd_id : Nat) (data : List Nat) (seq : Nat) (need_ack : Bool) : List Nat :=
  let ctrl : Nat := if need_ack then 0x01 else 0x00
  let header := STX ++ [ctrl] ++ pack16 data.length ++ pack16 seq ++ [cmd_id % 256]
  let body := header ++ data
  body ++ pack16 (crc16_xmodem body 0)

/-- parse_packet of test.py.  Returns (ctrl, seq, cmd_id, data), or none for
a buffer that is too short, has a wrong sync marker, or whose trailing two
bytes differ from the CRC recomputed over the rest.  getD/take/drop mirror
Python indexing and its clamping slices. -/
def parse_packet (raw : List Nat) : Option (Nat × Nat × Nat × List Nat) :=
  if raw.length < 10 ∨ raw.take 2 ≠ STX then none
  else
    let tail2 := raw.drop (raw.length - 2)
    let recv_crc := le16 (tail2.getD 0 0) (tail2.getD 1 0)
    let calc_crc := crc16_xmodem (raw.take (raw.length - 2)) 0
    if recv_crc ≠ calc_crc then none
    else
      some (raw.getD 2 0, le16 (raw.getD 5 0) (raw.getD 6 0), raw.getD 7 0,
        (raw.drop 8).take (le16 (raw.getD 3 0) (raw.getD 4 0)))

/-- clamp of test.py: max(a, min(b, v)). -/
def clamp (v a b : ℚ) : ℚ := max a (min b v)

/-- Yaw range of the A8 mini (test.py). -/
def YAW_MIN : ℚ := -135

def YAW_MAX : ℚ := 135

/-- Pitch range of the A8 mini (test.py). -/
def PITCH_MIN : ℚ := -90

def PITCH_MAX : ℚ := 45

/-- Python round() on an exact rational: round half to even. -/
def pyRound (q : ℚ) : Int :=
  if q - ⌊q⌋ < 1/2 then ⌊q⌋
  else if 1/2 < q - ⌊q⌋ then ⌊q⌋ + 1
  else if ⌊q⌋ % 2 = 0 then ⌊q⌋ else ⌊q⌋ + 1

/-- Python int() on an exact rational: truncation toward zero. -/
def pyInt (q : ℚ) : Int := if q < 0 then ⌈q⌉ else ⌊q⌋

/-- struct.pack "<h": two's-complement little-endian bytes of a signed
16-bit value. -/
def pack_i16 (v : Int) : List Nat := pack16 (v % 65536).toNat

/-- struct.unpack "<h" of two little-endian bytes. -/
def unpack_i16 (lo hi : Nat) : Int :=
  if lo + 256 * hi < 32768 then (lo + 256 * hi : Int) else (lo + 256 * hi : Int) - 65536

/-- The receive loop shared by request_attitude and set_angles_with_ack,
with the datagrams that arrive inside the timeout window listed in order:
each datagram is either accepted (the loop returns its value) or silently
skipped; an exhausted list is the timeout / socket-timeout break. -/
def poll_frames {α : Type} (accept : List Nat → Option α) : List (List Nat) → Option α
  | [] => none
  | d :: ds =>
    match accept d with
    | some v => some v
    | none => poll_frames accept ds

/-- The acceptance test of request_attitude (test.py): a frame parses, its
command id is 0x0D and its payload holds at least 12 bytes; the first three
little-endian signed 16-bit values are returned as degrees (tenths / 10).
The ctrl byte is not examined. -/
def attitude_of_frame (raw : List Nat) : Option (ℚ × ℚ × ℚ) :=
  match parse_packet raw with
  | none => none
  | some (_ctrl, _rseq, cmd_id, data) =>
    if cmd_id = 0x0D ∧ 12 ≤ data.length then
      some ((unpack_i16 (data.getD 0 0) (data.getD 1 0) : ℚ) / 10,
        (unpack_i16 (data.getD 2 0) (data.getD 3 0) : ℚ) / 10,
        (unpack_i16 (data.getD 4 0) (data.getD 5 0) : ℚ) / 10)
    else none

/-- request_attitude of test.py, with the inbound datagrams made explicit:
sends CMD 0x0D and polls for the first acceptable reply. -/
def request_attitude (datagrams : List (List Nat)) : Option (ℚ × ℚ × ℚ) :=
  poll_frames attitude_of_frame datagrams

/-- The acceptance test of set_angles_with_ack (test.py): a frame parses,
its command id is 0x0E, ctrl bit1 (is-ack) is set, and the payload holds at
least 6 bytes; the three little-endian signed 16-bit values are returned as
degrees. -/
def set_ack_of_frame (raw : List Nat) : Option (ℚ × ℚ × ℚ) :=
  match parse_packet raw with
  | none => none
  | some (ctrl, _rseq, cmd_id, rdata) =>
    if cmd_id = 0x0E ∧ ctrl &&& 0x02 ≠ 0 ∧ 6 ≤ rdata.length then
      some ((unpack_i16 (rdata.getD 0 0) (rdata.getD 1 0) : ℚ) / 10,
        (unpack_i16 (rdata.getD 2 0) (rdata.getD 3 0) : ℚ) / 10,
        (unpack_i16 (rdata.getD 4 0) (rdata.getD 5 0) : ℚ) / 10)
    else none

/-- set_angles_with_ack of test.py, with the inbound datagrams made
explicit.  Clamps yaw and pitch to the A8 mini ranges, encodes the clamped
values in tenths of a degree as two signed little-endian 16-bit fields,
builds the CMD 0x0E frame, then polls for an acknowledgement.  Returns the
transmitted frame together with (ok, ack angles, the command sent). -/
def set_angles_with_ack (seq : Nat) (yaw_deg pitch_deg : ℚ) (datagrams : List (List Nat)) :
    List Nat × (Bool × Option (ℚ × ℚ × ℚ) × (ℚ × ℚ)) :=
  let yaw := clamp yaw_deg YAW_MIN YAW_MAX
  let pitch := clamp pitch_deg PITCH_MIN PITCH_MAX
  let data := pack_i16 (pyRound (yaw * 10)) ++ pack_i16 (pyRound (pitch * 10))
  let pkt := build_packet 0x0E data seq true
  match poll_frames set_ack_of_frame datagrams with
  | some angles => (pkt, (true, some angles, (yaw, pitch)))
  | none => (pkt, (false, none, (yaw, pitch)))

/-- One detected target as consumed by PTZPipeline: the optional stable
track identity and the bounding box (x1, y1, x2, y2) as a list of pixel
coordinates, exactly the dict fields the pipeline reads. -/
structure Target where
  id : Option Int
  bbox : List ℚ
deriving DecidableEq

/-- The identity the pipeline assigns to the detection at position idx:
its id when present, otherwise the positional index (ptz.py, both in
_apply_joystick and _select_active_target). -/
def identityOf (idx : Nat) (t : Target) : Int := t.id.getD (idx : Int)

/-- The ids list built by _apply_joystick: one identity per detection, in
list order. -/
def identities (targets : List Target) : List Int :=
  targets.enum.map fun p => identityOf p.1 p.2

/-- The mutable PTZPipeline state the claims are about: the configured zoom
range and step (read once in __init__), plus zoom, force_wide and
active_target_id. -/
structure PTZState where
  zoom_min : ℚ
  zoom_max : ℚ
  zoom_step : ℚ
  zoom : ℚ
  force_wide : Bool
  active_target_id : Option Int
deriving DecidableEq

/-- PTZPipeline.__init__: zoom starts at zoom_min, wide mode off, no active
target. -/
def init_state (zmin zmax zstep : ℚ) : PTZState :=
  ⟨zmin, zmax, zstep, zmin, false, none⟩

/-- One joystick poll() result: {target_delta, zoom_delta, wide}. -/
structure JoyUpdates where
  target_delta : Int
  zoom_delta : Int
  wide : Bool
deriving DecidableEq

/-- Python `self.active_target_id in ids` where ids holds integers: false
when the active id is None. -/
def optMem (a : Option Int) (ids : List Int) : Bool :=
  match a with
  | none => false
  | some x => ids.contains x

/-- The `if wide:` block of _apply_joystick: set force_wide and reset zoom
to zoom_min. -/
def joy_wide_step (st : PTZState) (u : JoyUpdates) : PTZState :=
  if u.wide then { st with force_wide := true, zoom := st.zoom_min } else st

/-- The `if zoom_delta != 0:` block of _apply_joystick: clear force_wide
and move zoom by zoom_delta * zoom_step, clamped into
[zoom_min, zoom_max]. -/
def joy_zoom_step (st : PTZState) (u : JoyUpdates) : PTZState :=
  if u.zoom_delta ≠ 0 then
    { st with force_wide := false,
              zoom := max st.zoom_min
                (min st.zoom_max (st.zoom + (u.zoom_delta : ℚ) * st.zoom_step)) }
  else st

/-- The `if target_delta != 0 and targets:` block of _apply_joystick: snap
to the first identity (and return at once) when the active identity is not
among this frame's identities, otherwise advance circularly by
target_delta and clear force_wide. -/
def joy_target_step (st : PTZState) (u : JoyUpdates) (targets : List Target) : PTZState :=
  if u.target_delta ≠ 0 ∧ targets ≠ [] then
    let ids := identities targets
    if optMem st.active_target_id ids = false then
      { st with active_target_id := some (ids.getD 0 0) }
    else
      let current_idx : Int := (ids.indexOf (st.active_target_id.getD 0) : Nat)
      let new_idx := (current_idx + u.target_delta) % (ids.length : Int)
      { st with active_target_id := some (ids.getD new_idx.toNat 0), force_wide := false }
  else st

/-- PTZPipeline._apply_joystick as a state transformer: the wide reset,
then the zoom_delta adjustment, then target cycling, in the order the
method executes them. -/
def apply_joystick (st : PTZState) (u : JoyUpdates) (targets : List Target) : PTZState :=
  joy_target_step (joy_zoom_step (joy_wide_step st u) u) u targets

/-- The invariant of C7: zoom stays inside the configured range. -/
def ZoomInv (st : PTZState) : Prop :=
  st.zoom_min ≤ st.zoom ∧ st.zoom ≤ st.zoom_max

/-- The spec's Detection data model: a bbox is (x1, y1, x2, y2) with
x1 < x2 and y1 < y2. -/
def ValidBBox (t : Target) : Prop :=
  ∃ a b c d : ℚ, t.bbox = [a, b, c, d] ∧ a < c ∧ b < d

/-- Bounding-box area as computed by YoloTracker.get_primary_target:
(bbox[2] - bbox[0]) * (bbox[3] - bbox[1]). -/
def area (t : Target) : ℚ :=
  (t.bbox.getD 2 0 - t.bbox.getD 0 0) * (t.bbox.getD 3 0 - t.bbox.getD 1 0)

/-- One step of get_primary_target's loop: keep the accumulator unless this
object's area strictly exceeds the best so far (largest_area starts at 0). -/
def primaryStep (acc : ℚ × Option Target) (obj : Target) : ℚ × Option Target :=
  if acc.1 < area obj then (area obj, some obj) else acc

/-- YoloTracker.get_primary_target of yolo_tracker.py: None on an empty
list, otherwise the fold of primaryStep from (0, None). -/
def get_primary_target (tracked_objects : List Target) : Option Target :=
  match tracked_objects with
  | [] => none
  | _ => (tracked_objects.foldl primaryStep (0, none)).2

/-- PTZPipeline._select_active_target: None on an empty list, else the
first detection whose identity equals the active identity, else the
tracker's primary target. -/
def select_active_target (st : PTZState) (targets : List Target) : Option Target :=
  match targets with
  | [] => none
  | _ =>
    match targets.enum.find? (fun p => st.active_target_id == some (identityOf p.1 p.2)) with
    | some p => some p.2
    | none => get_primary_target targets

/-- clamp in integers, claim-style: clampI v lo hi = max lo (min hi v). -/
def clampI (v lo hi : Int) : Int := max lo (min hi v)

/-- The number of rows a numpy slice arr[a:b] keeps, for 0 ≤ a, b and
extent n. -/
def sliceLen (n a b : Int) : Int := max 0 (min n b - min n a)

/-- PTZPipeline._crop_and_zoom, reduced to the crop rectangle it selects:
none means the input frame is passed through unmodified (no target, wide
mode, zoom ≤ 1.01, a malformed bbox, or an empty crop slice), and
some (x1, y1, x2, y2) means the frame is cropped to that rectangle and
resized back to (w, h).  int() truncation is pyInt. -/
def crop_and_zoom_rect (zoom : ℚ) (force_wide : Bool) (w h : Int) (target : Option Target) :
    Option (Int × Int × Int × Int) :=
  match target with
  | none => none
  | some t =>
    if force_wide ∨ zoom ≤ 101/100 then none
    else if t.bbox.length < 4 then none
    else
      let cx := (t.bbox.getD 0 0 + t.bbox.getD 2 0) / 2
      let cy := (t.bbox.getD 1 0 + t.bbox.getD 3 0) / 2
      let crop_w := max 1 (min w (pyInt ((w : ℚ) / zoom)))
      let crop_h := max 1 (min h (pyInt ((h : ℚ) / zoom)))
      let x1 := max 0 (min (w - crop_w) (pyInt (cx - (crop_w : ℚ) / 2)))
      let y1 := max 0 (min (h - crop_h) (pyInt (cy - (crop_h : ℚ) / 2)))
      if sliceLen h y1 (y1 + crop_h) = 0 ∨ sliceLen w x1 (x1 + crop_w) = 0 then none
      else some (x1, y1, x1 + crop_w, y1 + crop_h)

/-- A fixed valid sample frame for the single-bit-corruption experiment:
the attitude request CMD 0x0D, empty payload, sequence 0, ack requested. -/
def sampleFrame : List Nat := build_packet 0x0D [] 0 true

/-- Flip bit (i % 8) of byte (i / 8) of a byte string. -/
def flipBit (bs : List Nat) (i : Nat) : List Nat :=
  bs.set (i / 8) ((bs.getD (i / 8) 0) ^^^ (1 <<< (i % 8)))

/-- A syntactically well-formed frame whose declared payload length (5)
overruns the buffer: header only, valid CRC, no payload bytes at all. -/
def overLongFrame : List Nat :=
  [0x55, 0x66, 0x00, 0x05, 0x00, 0x00, 0x00, 0x07] ++
    pack16 (crc16_xmodem [0x55, 0x66, 0x00, 0x05, 0x00, 0x00, 0x00, 0x07] 0)

/-- An attitude frame whose ctrl ack bit (bit1) is clear: built with
need_ack = False, carrying a 12-byte payload. -/
def noAckAttitudeFrame : List Nat := build_packet 0x0D (List.replicate 12 0) 0 false

end RPiEdge

namespace RPiEdge

theorem crc16_lt (data : List Nat) (init : Nat) : crc16_xmodem data init < 65536 :=
  Nat.lt_of_le_of_lt Nat.and_le_right (by norm_num)

theorem le16_pack16 (n : Nat) (h : n < 65536) : le16 (n % 256) (n / 256 % 256) = n := by
  have h2 : n / 256 < 256 := by omega
  rw [le16, Nat.mod_eq_of_lt h2, Nat.mod_add_div]

/-- build_packet written out as one explicit byte list. -/
theorem build_packet_eq (cmd : Nat) (data : List Nat) (seq : Nat) (ack : Bool) :
    build_packet cmd data seq ack =
      (0x55 :: 0x66 :: (if ack then 1 else 0) :: data.length % 256 :: data.length / 256 % 256 ::
        seq % 256 :: seq / 256 % 256 :: cmd % 256 :: data) ++
      pack16 (crc16_xmodem (0x55 :: 0x66 :: (if ack then 1 else 0) :: data.length % 256 ::
        data.length / 256 % 256 :: seq % 256 :: seq / 256 % 256 :: cmd % 256 :: data) 0) := by
  simp [build_packet, STX, pack16]

/-- parse_packet succeeds on any buffer made of a sync-led 8-byte header,
arbitrary trailing bytes and the matching CRC, and returns the header
fields with the clamped payload slice. -/
theorem parse_packet_valid (b2 b3 b4 b5 b6 b7 : Nat) (data : List Nat) :
    parse_packet ((0x55 :: 0x66 :: b2 :: b3 :: b4 :: b5 :: b6 :: b7 :: data) ++
        pack16 (crc16_xmodem (0x55 :: 0x66 :: b2 :: b3 :: b4 :: b5 :: b6 :: b7 :: data) 0)) =
      some (b2, le16 b5 b6, b7,
        (data ++ pack16 (crc16_xmodem
          (0x55 :: 0x66 :: b2 :: b3 :: b4 :: b5 :: b6 :: b7 :: data) 0)).take (le16 b3 b4)) := by
  set body : List Nat := 0x55 :: 0x66 :: b2 :: b3 :: b4 :: b5 :: b6 :: b7 :: data with hbody
  set c : Nat := crc16_xmodem body 0 with hc
  have hblen : body.length = 8 + data.length := by simp [hbody]; omega
  have hlen : (body ++ pack16 c).length = 10 + data.length := by
    simp [pack16, hblen]; omega
  unfold parse_packet
  rw [hlen]
  rw [if_neg]
  · have h8 : 10 + data.length - 2 = body.length := by omega
    rw [h8, List.drop_left body (pack16 c), List.take_left body (pack16 c)]
    dsimp only
    have hrecv : le16 ((pack16 c).getD 0 0) ((pack16 c).getD 1 0) = c := by
      simp only [pack16, List.getD, List.getElem?_cons_zero, List.getElem?_cons_succ,
        Option.getD_some]
      exact le16_pack16 c (crc16_lt body 0)
    rw [hrecv, if_neg]
    · simp [hbody, List.getD]
    · rw [hc]
      simp
  · rw [not_or]
    refine ⟨by omega, ?_⟩
    simp [hbody, STX]

/-- Decoding a frame built by build_packet recovers ctrl, sequence, command
id and payload, whenever the inputs are in the ranges struct.pack accepts. -/
theorem parse_build (cmd : Nat) (data : List Nat) (seq : Nat) (ack : Bool)
    (h1 : cmd < 256) (h2 : seq < 65536) (h3 : data.length ≤ 65535) :
    parse_packet (build_packet cmd data seq ack) =
      some (if ack then 1 else 0, seq, cmd, data) := by
  rw [build_packet_eq, parse_packet_valid, le16_pack16 seq h2,
    le16_pack16 data.length (by omega), Nat.mod_eq_of_lt h1, List.take_left]

/-- C1: for every command byte, payload of at most 65535 bytes, 16-bit
sequence number and ack flag, parse_packet (build_packet ...) succeeds and
recovers the original command id, payload, sequence and ack-requested bit
(bit0 of the returned ctrl), and crc16_xmodem is a deterministic function
with 16-bit outputs. -/
theorem claim_C1_crc_roundtrip (cmd : Nat) (data : List Nat) (seq : Nat) (ack : Bool)
    (h1 : cmd < 256) (h2 : seq < 65536) (h3 : data.length ≤ 65535) :
    parse_packet (build_packet cmd data seq ack) = some (if ack then 1 else 0, seq, cmd, data)
    ∧ (((if ack then (1 : Nat) else 0) &&& 1 = 1) ↔ ack = true)
    ∧ (∀ b₁ b₂ init, b₁ = b₂ → crc16_xmodem b₁ init = crc16_xmodem b₂ init)
    ∧ (∀ b init, crc16_xmodem b init < 65536) := by
  refine ⟨parse_build cmd data seq ack h1 h2 h3, ?_, ?_, ?_⟩
  · cases ack <;> simp
  · intro b₁ b₂ init h
    rw [h]
  · intro b init
    exact crc16_lt b init

/-- Witness for C1 at a concrete frame: command 13, payload [171, 205],
sequence 777, ack requested. -/
theorem claim_C1_crc_roundtrip_witness :
    parse_packet (build_packet 13 [171, 205] 777 true) = some (1, 777, 13, [171, 205])
    ∧ (((1 : Nat) &&& 1 = 1) ↔ true = true)
    ∧ (∀ b₁ b₂ init, b₁ = b₂ → crc16_xmodem b₁ init = crc16_xmodem b₂ init)
    ∧ (∀ b init, crc16_xmodem b init < 65536) :=
  claim_C1_crc_roundtrip 13 [171, 205] 777 true (by decide) (by decide) (by decide)

/-- C3 (amended): parse_packet returns none exactly when the buffer is
shorter than 10 bytes, the first two bytes differ from the sync marker, or
the trailing two bytes differ from the CRC recomputed over the preceding
bytes; on success it returns ctrl, sequence, command id and the payload
slice raw[8 : 8 + length], whose size is min(length, buffer - 8) — not
always exactly the declared length. -/
theorem claim_C3_parse_characterization (raw : List Nat) :
    (parse_packet raw = none ↔
      raw.length < 10 ∨ raw.take 2 ≠ STX ∨
        le16 ((raw.drop (raw.length - 2)).getD 0 0) ((raw.drop (raw.length - 2)).getD 1 0)
          ≠ crc16_xmodem (raw.take (raw.length - 2)) 0)
    ∧ (∀ ctrl seq cmd payload, parse_packet raw = some (ctrl, seq, cmd, payload) →
        ctrl = raw.getD 2 0 ∧ seq = le16 (raw.getD 5 0) (raw.getD 6 0) ∧
        cmd = raw.getD 7 0 ∧
        payload = (raw.drop 8).take (le16 (raw.getD 3 0) (raw.getD 4 0)) ∧
        payload.length = min (le16 (raw.getD 3 0) (raw.getD 4 0)) (raw.length - 8)) := by
  by_cases hshort : raw.length < 10 ∨ raw.take 2 ≠ STX
  · rw [parse_packet, if_pos hshort]
    refine ⟨?_, ?_⟩
    · simp only [true_iff]
      rcases hshort with h | h
      · exact Or.inl h
      · exact Or.inr (Or.inl h)
    · intro ctrl seq cmd payload h
      exact Option.noConfusion h
  · rw [parse_packet, if_neg hshort]
    dsimp only
    rw [not_or] at hshort
    by_cases hcrc :
        le16 ((raw.drop (raw.length - 2)).getD 0 0) ((raw.drop (raw.length - 2)).getD 1 0)
          ≠ crc16_xmodem (raw.take (raw.length - 2)) 0
    · rw [if_pos hcrc]
      refine ⟨?_, ?_⟩
      · simp only [true_iff]
        exact Or.inr (Or.inr hcrc)
      · intro ctrl seq cmd payload h
        exact Option.noConfusion h
    · rw [if_neg hcrc]
      refine ⟨?_, ?_⟩
      · push_neg at hcrc
        refine ⟨fun h => Option.noConfusion h, fun h => ?_⟩
        rcases h with h | h | h
        · exact absurd h hshort.1
        · exact absurd h hshort.2
        · exact absurd hcrc h
      · intro ctrl seq cmd payload h
        injection h with h
        simp only [Prod.mk.injEq] at h
        obtain ⟨h1, h2, h3, h4⟩ := h
        subst h4
        refine ⟨h1.symm, h2.symm, h3.symm, rfl, ?_⟩
        simp [List.length_take, List.length_drop]

set_option maxRecDepth 8192 in
/-- Counterexample to C3 as stated: overLongFrame declares a payload length
of 5 but only 2 bytes follow the header, and parse_packet still succeeds,
returning a 2-byte payload slice (the checksum bytes), not 5 bytes. -/
theorem claim_C3_counterexample :
    (parse_packet overLongFrame).isSome = true
    ∧ le16 (overLongFrame.getD 3 0) (overLongFrame.getD 4 0) = 5
    ∧ (parse_packet overLongFrame).map (fun r => r.2.2.2.length) = some 2
    ∧ (2 : Nat) ≠ 5 := by decide

/-- C2: set_angles_with_ack clamps before encoding: the transmitted frame
decodes to command 0x0E with ack requested and a payload holding the
clamped yaw and pitch in tenths of a degree as two little-endian signed
16-bit values, and the reported "command sent" is the clamped pair —
whatever datagrams arrive. -/
theorem claim_C2_set_angles_clamps (seq : Nat) (yaw pitch : ℚ) (ds : List (List Nat))
    (h : seq < 65536) :
    parse_packet (set_angles_with_ack seq yaw pitch ds).1 =
      some (1, seq, 0x0E,
        pack_i16 (pyRound (clamp yaw YAW_MIN YAW_MAX * 10)) ++
          pack_i16 (pyRound (clamp pitch PITCH_MIN PITCH_MAX * 10)))
    ∧ (set_angles_with_ack seq yaw pitch ds).2.2.2 =
        (clamp yaw YAW_MIN YAW_MAX, clamp pitch PITCH_MIN PITCH_MAX) := by
  have h4 : (pack_i16 (pyRound (clamp yaw YAW_MIN YAW_MAX * 10)) ++
      pack_i16 (pyRound (clamp pitch PITCH_MIN PITCH_MAX * 10))).length ≤ 65535 := by
    simp [pack_i16, pack16]
  have hb := parse_build 0x0E (pack_i16 (pyRound (clamp yaw YAW_MIN YAW_MAX * 10)) ++
      pack_i16 (pyRound (clamp pitch PITCH_MIN PITCH_MAX * 10))) seq true (by norm_num) h h4
  rcases hX : poll_frames set_ack_of_frame ds with _ | angles <;>
    simp only [set_angles_with_ack, hX] <;> exact ⟨hb, trivial⟩

/-- Witness for C2 at the spec's inputs yaw = 200, pitch = -999: the frame
carries the clamped command, the reported command is (135, -90), and the
payload bytes are 1350 and -900 in little-endian two's complement. -/
theorem claim_C2_set_angles_clamps_witness :
    (parse_packet (set_angles_with_ack 5 200 (-999) []).1 =
      some (1, 5, 0x0E,
        pack_i16 (pyRound (clamp 200 YAW_MIN YAW_MAX * 10)) ++
          pack_i16 (pyRound (clamp (-999) PITCH_MIN PITCH_MAX * 10)))
    ∧ (set_angles_with_ack 5 200 (-999) []).2.2.2 =
        (clamp 200 YAW_MIN YAW_MAX, clamp (-999) PITCH_MIN PITCH_MAX))
    ∧ (set_angles_with_ack 5 200 (-999) []).2.2.2 = (135, -90)
    ∧ pack_i16 (pyRound (clamp 200 YAW_MIN YAW_MAX * 10)) ++
        pack_i16 (pyRound (clamp (-999) PITCH_MIN PITCH_MAX * 10)) = [70, 5, 124, 252] := by
  have hcy : clamp 200 YAW_MIN YAW_MAX = 135 := by
    rw [clamp, YAW_MIN, YAW_MAX]; norm_num
  have hcp : clamp (-999) PITCH_MIN PITCH_MAX = -90 := by
    rw [clamp, PITCH_MIN, PITCH_MAX]; norm_num
  have h := claim_C2_set_angles_clamps 5 200 (-999) [] (by decide)
  refine ⟨h, ?_, ?_⟩
  · rw [h.2, hcy, hcp]
  · rw [hcy, hcp]
    have h1 : pyRound ((135 : ℚ) * 10) = 1350 := by norm_num [pyRound]
    have h2 : pyRound ((-90 : ℚ) * 10) = -900 := by norm_num [pyRound]
    rw [h1, h2]
    decide

/-- C4 (amended): the polling loops accept the first decodable frame that
matches and report a timeout when none arrives; set_angles_with_ack
requires command 0x0E, ctrl ack bit set and a 6-byte payload, but
request_attitude accepts any frame with command 0x0D and a 12-byte
payload, whether or not the ack bit is set; non-matching frames are
skipped silently. -/
theorem claim_C4_ack_polling (raw d : List Nat) (ds : List (List Nat)) :
    ((attitude_of_frame raw).isSome ↔
      ∃ c s data, parse_packet raw = some (c, s, 0x0D, data) ∧ 12 ≤ data.length)
    ∧ ((set_ack_of_frame raw).isSome ↔
      ∃ c s data, parse_packet raw = some (c, s, 0x0E, data) ∧ c &&& 0x02 ≠ 0 ∧
        6 ≤ data.length)
    ∧ request_attitude [] = none
    ∧ (attitude_of_frame d = none → request_attitude (d :: ds) = request_attitude ds)
    ∧ (∀ v, attitude_of_frame d = some v → request_attitude (d :: ds) = some v)
    ∧ (∀ seq yaw pitch, (set_angles_with_ack seq yaw pitch []).2.1 = false ∧
        (set_angles_with_ack seq yaw pitch []).2.2.1 = none)
    ∧ (∀ seq yaw pitch, set_ack_of_frame d = none →
        (set_angles_with_ack seq yaw pitch (d :: ds)).2 =
          (set_angles_with_ack seq yaw pitch ds).2)
    ∧ (∀ seq yaw pitch v, set_ack_of_frame d = some v →
        (set_angles_with_ack seq yaw pitch (d :: ds)).2.1 = true ∧
        (set_angles_with_ack seq yaw pitch (d :: ds)).2.2.1 = some v) := by
  refine ⟨?_, ?_, rfl, ?_, ?_, ?_, ?_, ?_⟩
  · rw [attitude_of_frame]
    rcases hp : parse_packet raw with _ | ⟨c, s, cmd, data⟩
    · simp
    · dsimp only
      by_cases hc : cmd = 0x0D ∧ 12 ≤ data.length
      · rw [if_pos hc]
        simp only [Option.isSome_some, true_iff]
        exact ⟨c, s, data, by rw [← hc.1], hc.2⟩
      · rw [if_neg hc]
        simp only [Option.isSome_none, Bool.false_eq_true, false_iff, not_exists]
        intro c' s' data' hmem
        have heq := Option.some.inj hmem.1
        simp only [Prod.mk.injEq] at heq
        have hlen := hmem.2
        rw [← heq.2.2.2] at hlen
        exact hc ⟨heq.2.2.1, hlen⟩
  · rw [set_ack_of_frame]
    rcases hp : parse_packet raw with _ | ⟨c, s, cmd, data⟩
    · simp
    · dsimp only
      by_cases hc : cmd = 0x0E ∧ c &&& 0x02 ≠ 0 ∧ 6 ≤ data.length
      · rw [if_pos hc]
        simp only [Option.isSome_some, true_iff]
        exact ⟨c, s, data, by rw [← hc.1], hc.2⟩
      · rw [if_neg hc]
        simp only [Option.isSome_none, Bool.false_eq_true, false_iff, not_exists]
        intro c' s' data' hmem
        have heq := Option.some.inj hmem.1
        simp only [Prod.mk.injEq] at heq
        have hbit := hmem.2.1
        have hlen := hmem.2.2
        rw [← heq.1] at hbit
        rw [← heq.2.2.2] at hlen
        exact hc ⟨heq.2.2.1, hbit, hlen⟩
  · intro h
    simp [request_attitude, poll_frames, h]
  · intro v h
    simp [request_attitude, poll_frames, h]
  · intro seq yaw pitch
    exact ⟨rfl, rfl⟩
  · intro seq yaw pitch h
    simp only [set_angles_with_ack, poll_frames, h]
  · intro seq yaw pitch v h
    simp only [set_angles_with_ack, poll_frames, h]
    exact ⟨trivial, trivial⟩

set_option maxRecDepth 8192 in
/-- Counterexample to C4 as stated: a CMD 0x0D frame whose ctrl ack bit
(bit1) is clear is accepted by request_attitude rather than discarded. -/
theorem claim_C4_counterexample :
    (parse_packet noAckAttitudeFrame).map (fun r => r.1 &&& 0x02) = some 0
    ∧ (request_attitude [noAckAttitudeFrame]).isSome = true := by
  refine ⟨by decide, ?_⟩
  decide

set_option maxRecDepth 16384 in
/-- C9: flipping any single bit of the checksummed region (bytes 0-7, the
sync marker included) of the fixed valid 10-byte sampleFrame makes
parse_packet return none. -/
theorem claim_C9_single_bit_corruption (i : Nat) (h : i < 64) :
    parse_packet (flipBit sampleFrame i) = none :=
  (by decide : ∀ j, j < 64 → parse_packet (flipBit sampleFrame j) = none) i h

/-- Witness for C9 at bit 17 (bit 1 of the ctrl byte). -/
theorem claim_C9_single_bit_corruption_witness :
    parse_packet (flipBit sampleFrame 17) = none :=
  claim_C9_single_bit_corruption 17 (by decide)

theorem joy_wide_active (st : PTZState) (u : JoyUpdates) :
    (joy_wide_step st u).active_target_id = st.active_target_id := by
  rw [joy_wide_step]; split <;> rfl

theorem joy_zoom_active (st : PTZState) (u : JoyUpdates) :
    (joy_zoom_step st u).active_target_id = st.active_target_id := by
  rw [joy_zoom_step]; split <;> rfl

theorem joy_wide_config (st : PTZState) (u : JoyUpdates) :
    (joy_wide_step st u).zoom_min = st.zoom_min ∧
    (joy_wide_step st u).zoom_max = st.zoom_max ∧
    (joy_wide_step st u).zoom_step = st.zoom_step := by
  rw [joy_wide_step]; split <;> exact ⟨rfl, rfl, rfl⟩

theorem joy_zoom_config (st : PTZState) (u : JoyUpdates) :
    (joy_zoom_step st u).zoom_min = st.zoom_min ∧
    (joy_zoom_step st u).zoom_max = st.zoom_max ∧
    (joy_zoom_step st u).zoom_step = st.zoom_step := by
  rw [joy_zoom_step]; split <;> exact ⟨rfl, rfl, rfl⟩

theorem joy_target_zoom (st : PTZState) (u : JoyUpdates) (targets : List Target) :
    (joy_target_step st u targets).zoom = st.zoom ∧
    (joy_target_step st u targets).zoom_min = st.zoom_min ∧
    (joy_target_step st u targets).zoom_max = st.zoom_max := by
  rw [joy_target_step]
  split
  · dsimp only
    split <;> exact ⟨rfl, rfl, rfl⟩
  · exact ⟨rfl, rfl, rfl⟩

/-- C6: with target_delta ≠ 0 and a non-empty detection list, the active
identity snaps to the first identity when absent from this frame's
identities, and otherwise advances circularly by target_delta through the
identity list. -/
theorem claim_C6_target_cycling (st : PTZState) (u : JoyUpdates) (targets : List Target)
    (hd : u.target_delta ≠ 0) (ht : targets ≠ []) :
    (optMem st.active_target_id (identities targets) = false →
      (apply_joystick st u targets).active_target_id = some ((identities targets).getD 0 0))
    ∧ (∀ x, st.active_target_id = some x → x ∈ identities targets →
      (apply_joystick st u targets).active_target_id =
        some ((identities targets).getD
          ((((identities targets).indexOf x : Int) + u.target_delta) %
            ((identities targets).length : Int)).toNat 0)) := by
  have hact : (joy_zoom_step (joy_wide_step st u) u).active_target_id =
      st.active_target_id := by
    rw [joy_zoom_active, joy_wide_active]
  constructor
  · intro hmem
    rw [apply_joystick, joy_target_step, if_pos ⟨hd, ht⟩]
    dsimp only
    rw [hact, if_pos hmem]
  · intro x hx hxmem
    rw [apply_joystick, joy_target_step, if_pos ⟨hd, ht⟩]
    dsimp only
    rw [hact, hx]
    have hcont : optMem (some x) (identities targets) = true := by
      rw [optMem]
      exact List.elem_eq_true_of_mem hxmem
    rw [hcont]
    dsimp only [Option.getD_some]
    rfl

/-- Witness for C6: identities [3, 7, 9] with active 7 advance to 9 on
target_delta = +1; from 9 a further +1 wraps to 3; with identities [2, 5]
an active 7 snaps to 2. -/
theorem claim_C6_target_cycling_witness :
    ((optMem (PTZState.mk 1 3 1 1 false (some 7)).active_target_id
        (identities [Target.mk (some 3) [0, 0, 1, 1], Target.mk (some 7) [0, 0, 1, 1],
          Target.mk (some 9) [0, 0, 1, 1]]) = false →
      (apply_joystick (PTZState.mk 1 3 1 1 false (some 7)) (JoyUpdates.mk 1 0 false)
          [Target.mk (some 3) [0, 0, 1, 1], Target.mk (some 7) [0, 0, 1, 1],
            Target.mk (some 9) [0, 0, 1, 1]]).active_target_id =
        some ((identities [Target.mk (some 3) [0, 0, 1, 1], Target.mk (some 7) [0, 0, 1, 1],
          Target.mk (some 9) [0, 0, 1, 1]]).getD 0 0))
    ∧ (∀ x, (PTZState.mk 1 3 1 1 false (some 7)).active_target_id = some x →
        x ∈ identities [Target.mk (some 3) [0, 0, 1, 1], Target.mk (some 7) [0, 0, 1, 1],
          Target.mk (some 9) [0, 0, 1, 1]] →
      (apply_joystick (PTZState.mk 1 3 1 1 false (some 7)) (JoyUpdates.mk 1 0 false)
          [Target.mk (some 3) [0, 0, 1, 1], Target.mk (some 7) [0, 0, 1, 1],
            Target.mk (some 9) [0, 0, 1, 1]]).active_target_id =
        some ((identities [Target.mk (some 3) [0, 0, 1, 1], Target.mk (some 7) [0, 0, 1, 1],
          Target.mk (some 9) [0, 0, 1, 1]]).getD
          ((((identities [Target.mk (some 3) [0, 0, 1, 1], Target.mk (some 7) [0, 0, 1, 1],
            Target.mk (some 9) [0, 0, 1, 1]]).indexOf x : Int) + (JoyUpdates.mk 1 0 false).target_delta) %
            ((identities [Target.mk (some 3) [0, 0, 1, 1], Target.mk (some 7) [0, 0, 1, 1],
              Target.mk (some 9) [0, 0, 1, 1]]).length : Int)).toNat 0)))
    ∧ (apply_joystick (PTZState.mk 1 3 1 1 false (some 7)) (JoyUpdates.mk 1 0 false)
        [Target.mk (some 3) [0, 0, 1, 1], Target.mk (some 7) [0, 0, 1, 1],
          Target.mk (some 9) [0, 0, 1, 1]]).active_target_id = some 9
    ∧ (apply_joystick (PTZState.mk 1 3 1 1 false (some 9)) (JoyUpdates.mk 1 0 false)
        [Target.mk (some 3) [0, 0, 1, 1], Target.mk (some 7) [0, 0, 1, 1],
          Target.mk (some 9) [0, 0, 1, 1]]).active_target_id = some 3
    ∧ (apply_joystick (PTZState.mk 1 3 1 1 false (some 7)) (JoyUpdates.mk 1 0 false)
        [Target.mk (some 2) [0, 0, 1, 1], Target.mk (some 5) [0, 0, 1, 1]]).active_target_id =
      some 2 :=
  ⟨claim_C6_target_cycling (PTZState.mk 1 3 1 1 false (some 7)) (JoyUpdates.mk 1 0 false)
      [Target.mk (some 3) [0, 0, 1, 1], Target.mk (some 7) [0, 0, 1, 1],
        Target.mk (some 9) [0, 0, 1, 1]] (by decide) (by simp),
    by decide, by decide, by decide⟩

/-- C7 (amended): with zoom_min ≤ zoom_max the zoom range invariant holds
after __init__ and is preserved by every joystick update; and provided
additionally 0 ≤ zoom_step, a pure zoom_delta = +1 event at zoom_max
leaves zoom at zoom_max. -/
theorem claim_C7_zoom_invariant (st : PTZState) (u : JoyUpdates) (targets : List Target)
    (hmm : st.zoom_min ≤ st.zoom_max) :
    (∀ zmin zmax zstep : ℚ, zmin ≤ zmax → ZoomInv (init_state zmin zmax zstep))
    ∧ (ZoomInv st → ZoomInv (apply_joystick st u targets))
    ∧ (0 ≤ st.zoom_step → u.wide = false → u.zoom_delta = 1 → st.zoom = st.zoom_max →
        (apply_joystick st u targets).zoom = st.zoom_max) := by
  refine ⟨?_, ?_, ?_⟩
  · intro zmin zmax zstep h
    exact ⟨le_refl zmin, h⟩
  · intro hinv
    have h1 : ZoomInv (joy_wide_step st u) := by
      rw [joy_wide_step]
      split
      · exact ⟨le_refl _, hmm⟩
      · exact hinv
    have hw := joy_wide_config st u
    have h2 : ZoomInv (joy_zoom_step (joy_wide_step st u) u) := by
      rw [joy_zoom_step]
      split
      · refine ⟨le_max_left _ _, ?_⟩
        dsimp only
        rw [hw.1, hw.2.1]
        exact max_le hmm (min_le_left _ _)
      · exact h1
    have hz := joy_zoom_config (joy_wide_step st u) u
    have ht := joy_target_zoom (joy_zoom_step (joy_wide_step st u) u) u targets
    rw [ZoomInv, apply_joystick, ht.1, ht.2.1, ht.2.2]
    exact h2
  · intro hstep hwide hdelta hmax
    have hnw : joy_wide_step st u = st := by rw [joy_wide_step, hwide]; rfl
    have ht := joy_target_zoom (joy_zoom_step (joy_wide_step st u) u) u targets
    rw [apply_joystick, ht.1, hnw, joy_zoom_step, if_pos (by rw [hdelta]; norm_num)]
    dsimp only
    rw [hdelta, hmax]
    have hup : st.zoom_max ≤ st.zoom_max + ((1 : Int) : ℚ) * st.zoom_step := by
      have : (0 : ℚ) ≤ ((1 : Int) : ℚ) * st.zoom_step := by
        rw [Int.cast_one, one_mul]
        exact hstep
      linarith
    rw [min_eq_left hup, max_eq_right hmm]

/-- Witness for C7 at the concrete state (zoom_min 1, zoom_max 3,
zoom_step 1, zoom 3) and a pure zoom-in event. -/
theorem claim_C7_zoom_invariant_witness :
    (∀ zmin zmax zstep : ℚ, zmin ≤ zmax → ZoomInv (init_state zmin zmax zstep))
    ∧ (ZoomInv (PTZState.mk 1 3 1 3 false none) →
        ZoomInv (apply_joystick (PTZState.mk 1 3 1 3 false none) (JoyUpdates.mk 0 1 false) []))
    ∧ (0 ≤ (PTZState.mk 1 3 1 3 false none).zoom_step → (JoyUpdates.mk 0 1 false).wide = false →
        (JoyUpdates.mk 0 1 false).zoom_delta = 1 →
        (PTZState.mk 1 3 1 3 false none).zoom = (PTZState.mk 1 3 1 3 false none).zoom_max →
        (apply_joystick (PTZState.mk 1 3 1 3 false none) (JoyUpdates.mk 0 1 false) []).zoom =
          (PTZState.mk 1 3 1 3 false none).zoom_max) :=
  claim_C7_zoom_invariant (PTZState.mk 1 3 1 3 false none) (JoyUpdates.mk 0 1 false) []
    (by norm_num)

/-- Counterexample to C7 as stated: with a negative zoom_step (allowed by
the claim, which assumes only zoom_min ≤ zoom_max), a zoom_delta = +1
event at zoom = zoom_max moves zoom from 3 down to 2. -/
theorem claim_C7_counterexample :
    (PTZState.mk 1 3 (-1) 3 false none).zoom_min ≤ (PTZState.mk 1 3 (-1) 3 false none).zoom_max
    ∧ (PTZState.mk 1 3 (-1) 3 false none).zoom = (PTZState.mk 1 3 (-1) 3 false none).zoom_max
    ∧ (JoyUpdates.mk 0 1 false).zoom_delta = 1
    ∧ (JoyUpdates.mk 0 1 false).wide = false
    ∧ (apply_joystick (PTZState.mk 1 3 (-1) 3 false none) (JoyUpdates.mk 0 1 false) []).zoom = 2
    ∧ (2 : ℚ) ≠ (PTZState.mk 1 3 (-1) 3 false none).zoom_max := by
  refine ⟨by norm_num, rfl, rfl, rfl, ?_, by norm_num⟩
  rw [apply_joystick, joy_target_step, joy_zoom_step, joy_wide_step]
  norm_num

/-- C10: when target cycling fires with the active identity present, the
advance clears force_wide (even inside the same event as a wide press);
when the active identity is absent, the snap-to-first branch returns early
and, for a pure cycling event, leaves force_wide and zoom unchanged. -/
theorem claim_C10_cycling_frame_effect (st : PTZState) (u : JoyUpdates) (targets : List Target)
    (hd : u.target_delta ≠ 0) (ht : targets ≠ []) :
    (optMem st.active_target_id (identities targets) = true →
      (apply_joystick st u targets).force_wide = false)
    ∧ (optMem st.active_target_id (identities targets) = false →
        u.wide = false → u.zoom_delta = 0 →
      (apply_joystick st u targets).force_wide = st.force_wide
      ∧ (apply_joystick st u targets).zoom = st.zoom
      ∧ (apply_joystick st u targets).active_target_id =
          some ((identities targets).getD 0 0)) := by
  have hact : (joy_zoom_step (joy_wide_step st u) u).active_target_id =
      st.active_target_id := by
    rw [joy_zoom_active, joy_wide_active]
  constructor
  · intro hmem
    rw [apply_joystick, joy_target_step, if_pos ⟨hd, ht⟩]
    dsimp only
    rw [hact, hmem]
    rfl
  · intro hmem hwide hzoom
    have hnw : joy_wide_step st u = st := by rw [joy_wide_step, hwide]; rfl
    have hnz : joy_zoom_step st u = st := by
      rw [joy_zoom_step, hzoom]
      simp
    rw [apply_joystick, joy_target_step, if_pos ⟨hd, ht⟩]
    dsimp only
    rw [hnw, hnz, hmem]
    exact ⟨rfl, rfl, rfl⟩

/-- Witness for C10: cycling among identities [3, 7] with active 7 clears a
set force_wide; with active 99 absent from [3, 7] and a pure cycling event,
force_wide and zoom keep their values and the active identity snaps to 3. -/
theorem claim_C10_cycling_frame_effect_witness :
    ((optMem (PTZState.mk 1 3 1 2 true (some 7)).active_target_id
        (identities [Target.mk (some 3) [0, 0, 1, 1], Target.mk (some 7) [0, 0, 1, 1]]) = true →
      (apply_joystick (PTZState.mk 1 3 1 2 true (some 7)) (JoyUpdates.mk 1 0 false)
          [Target.mk (some 3) [0, 0, 1, 1], Target.mk (some 7) [0, 0, 1, 1]]).force_wide = false)
    ∧ (optMem (PTZState.mk 1 3 1 2 true (some 7)).active_target_id
        (identities [Target.mk (some 3) [0, 0, 1, 1], Target.mk (some 7) [0, 0, 1, 1]]) = false →
        (JoyUpdates.mk 1 0 false).wide = false → (JoyUpdates.mk 1 0 false).zoom_delta = 0 →
      (apply_joystick (PTZState.mk 1 3 1 2 true (some 7)) (JoyUpdates.mk 1 0 false)
          [Target.mk (some 3) [0, 0, 1, 1], Target.mk (some 7) [0, 0, 1, 1]]).force_wide =
        (PTZState.mk 1 3 1 2 true (some 7)).force_wide
      ∧ (apply_joystick (PTZState.mk 1 3 1 2 true (some 7)) (JoyUpdates.mk 1 0 false)
          [Target.mk (some 3) [0, 0, 1, 1], Target.mk (some 7) [0, 0, 1, 1]]).zoom =
        (PTZState.mk 1 3 1 2 true (some 7)).zoom
      ∧ (apply_joystick (PTZState.mk 1 3 1 2 true (some 7)) (JoyUpdates.mk 1 0 false)
          [Target.mk (some 3) [0, 0, 1, 1], Target.mk (some 7) [0, 0, 1, 1]]).active_target_id =
        some ((identities [Target.mk (some 3) [0, 0, 1, 1],
          Target.mk (some 7) [0, 0, 1, 1]]).getD 0 0)))
    ∧ (apply_joystick (PTZState.mk 1 3 1 2 true (some 7)) (JoyUpdates.mk 1 0 false)
        [Target.mk (some 3) [0, 0, 1, 1], Target.mk (some 7) [0, 0, 1, 1]]).force_wide = false
    ∧ (apply_joystick (PTZState.mk 1 3 1 2 true (some 99)) (JoyUpdates.mk 1 0 false)
        [Target.mk (some 3) [0, 0, 1, 1], Target.mk (some 7) [0, 0, 1, 1]]).force_wide = true
    ∧ (apply_joystick (PTZState.mk 1 3 1 2 true (some 99)) (JoyUpdates.mk 1 0 false)
        [Target.mk (some 3) [0, 0, 1, 1], Target.mk (some 7) [0, 0, 1, 1]]).active_target_id =
      some 3 :=
  ⟨claim_C10_cycling_frame_effect (PTZState.mk 1 3 1 2 true (some 7)) (JoyUpdates.mk 1 0 false)
      [Target.mk (some 3) [0, 0, 1, 1], Target.mk (some 7) [0, 0, 1, 1]] (by decide) (by simp),
    by decide, by decide, by decide⟩


theorem area_pos_of_valid (t : Target) (h : ValidBBox t) : 0 < area t := by
  obtain ⟨a, b, c, d, hbb, h1, h2⟩ := h
  rw [area, hbb]
  dsimp only [List.getD, List.getElem?_cons_zero, List.getElem?_cons_succ, Option.getD_some]
  exact mul_pos (sub_pos.mpr h1) (sub_pos.mpr h2)

/-- The loop of get_primary_target, fully characterised: starting from a
best area `a` and candidate `r`, either nothing beats `a` and the
accumulator is returned unchanged, or the result is the first occurrence
of the maximum area beyond `a`. -/
theorem foldl_primaryStep_spec (l : List Target) (a : ℚ) (r : Option Target) :
    (l.foldl primaryStep (a, r) = (a, r) ∧ ∀ t ∈ l, area t ≤ a)
    ∨ (∃ l₁ t l₂, l = l₁ ++ t :: l₂ ∧ l.foldl primaryStep (a, r) = (area t, some t)
        ∧ a < area t ∧ (∀ u ∈ l₁, area u < area t) ∧ (∀ u ∈ l₂, area u ≤ area t)) := by
  induction l generalizing a r with
  | nil => exact Or.inl ⟨rfl, by simp⟩
  | cons hd tl ih =>
    rw [List.foldl_cons]
    by_cases hcase : a < area hd
    · rw [show primaryStep (a, r) hd = (area hd, some hd) from by
        rw [primaryStep, if_pos hcase]]
      rcases ih (area hd) (some hd) with ⟨heq, hall⟩ |
        ⟨l₁, t, l₂, hsplit, hfold, hlt, hbefore, hafter⟩
      · exact Or.inr ⟨[], hd, tl, rfl, heq, hcase, by simp, hall⟩
      · refine Or.inr ⟨hd :: l₁, t, l₂, by simp [hsplit], hfold, lt_trans hcase hlt, ?_, hafter⟩
        intro u hu
        rcases List.mem_cons.mp hu with h | h
        · rw [h]; exact hlt
        · exact hbefore u h
    · rw [show primaryStep (a, r) hd = (a, r) from by rw [primaryStep, if_neg hcase]]
      rcases ih a r with ⟨heq, hall⟩ | ⟨l₁, t, l₂, hsplit, hfold, hlt, hbefore, hafter⟩
      · refine Or.inl ⟨heq, ?_⟩
        intro t htmem
        rcases List.mem_cons.mp htmem with h | h
        · rw [h]; exact le_of_not_lt hcase
        · exact hall t h
      · refine Or.inr ⟨hd :: l₁, t, l₂, by simp [hsplit], hfold, hlt, ?_, hafter⟩
        intro u hu
        rcases List.mem_cons.mp hu with h | h
        · rw [h]; exact lt_of_le_of_lt (le_of_not_lt hcase) hlt
        · exact hbefore u h

/-- get_primary_target returns none exactly on lists with no strictly
positive area, and otherwise the earliest detection of maximal area. -/
theorem get_primary_target_spec (objs : List Target) (hne : objs ≠ []) :
    ((∀ t ∈ objs, area t ≤ 0) ∧ get_primary_target objs = none)
    ∨ (∃ l₁ t l₂, objs = l₁ ++ t :: l₂ ∧ 0 < area t ∧ (∀ u ∈ l₁, area u < area t)
        ∧ (∀ u ∈ l₂, area u ≤ area t) ∧ get_primary_target objs = some t) := by
  have hfold := foldl_primaryStep_spec objs 0 none
  rcases objs with _ | ⟨hd, tl⟩
  · exact absurd rfl hne
  · rw [get_primary_target]
    rcases hfold with ⟨heq, hall⟩ | ⟨l₁, t, l₂, hsplit, hfoldeq, hlt, hbefore, hafter⟩
    · exact Or.inl ⟨hall, by rw [heq]⟩
    · exact Or.inr ⟨l₁, t, l₂, hsplit, hlt, hbefore, hafter, by rw [hfoldeq]⟩
    · intro h2
      exact List.noConfusion h2

/-- find? = some x splits the list at the first hit. -/
theorem find?_eq_some_split {α : Type} (p : α → Bool) :
    ∀ (l : List α) (x : α), l.find? p = some x →
      p x = true ∧ ∃ l₁ l₂, l = l₁ ++ x :: l₂ ∧ ∀ u ∈ l₁, p u = false := by
  intro l
  induction l with
  | nil => intro x h; exact Option.noConfusion h
  | cons hd tl ih =>
    intro x h
    by_cases hp : p hd = true
    · rw [List.find?_cons_of_pos tl hp] at h
      have hx : hd = x := Option.some.inj h
      subst hx
      exact ⟨hp, [], tl, rfl, by simp⟩
    · have hp2 : p hd = false := Bool.eq_false_iff.mpr hp
      rw [List.find?_cons_of_neg tl (by simp [hp2])] at h
      obtain ⟨hpx, l₁, l₂, hsplit, hnone⟩ := ih x h
      refine ⟨hpx, hd :: l₁, l₂, by simp [hsplit], ?_⟩
      intro u hu
      rcases List.mem_cons.mp hu with h2 | h2
      · rw [h2]; exact hp2
      · exact hnone u h2

/-- C8: for detection lists obeying the spec's bbox invariant
(x1 < x2, y1 < y2): an empty list selects nothing; if a detection's
identity equals the active identity, the first such detection is selected;
otherwise the selected detection is the earliest one of maximal
bounding-box area. -/
theorem claim_C8_selection_policy (st : PTZState) (targets : List Target)
    (hv : ∀ t ∈ targets, ValidBBox t) :
    (targets = [] → select_active_target st targets = none)
    ∧ (∀ p : Nat × Target, targets.enum.find?
          (fun q => st.active_target_id == some (identityOf q.1 q.2)) = some p →
        select_active_target st targets = some p.2
        ∧ st.active_target_id = some (identityOf p.1 p.2)
        ∧ ∃ e₁ e₂, targets.enum = e₁ ++ p :: e₂ ∧
            ∀ q ∈ e₁, st.active_target_id ≠ some (identityOf q.1 q.2))
    ∧ (targets.enum.find? (fun q => st.active_target_id == some (identityOf q.1 q.2)) = none →
        targets ≠ [] →
        ∃ l₁ t l₂, targets = l₁ ++ t :: l₂ ∧ (∀ u ∈ l₁, area u < area t)
          ∧ (∀ u ∈ l₂, area u ≤ area t) ∧ select_active_target st targets = some t) := by
  refine ⟨?_, ?_, ?_⟩
  · intro h
    rw [h, select_active_target]
  · intro p hfind
    obtain ⟨hpx, e₁, e₂, hsplit, hnone⟩ := find?_eq_some_split _ targets.enum p hfind
    have hid : st.active_target_id = some (identityOf p.1 p.2) := beq_iff_eq.mp hpx
    have hsel : select_active_target st targets = some p.2 := by
      rcases htg : targets with _ | ⟨hd, tl⟩
      · rw [htg] at hfind
        simp [List.enum] at hfind
      · rw [select_active_target]
        rw [htg] at hfind
        rw [hfind]
        intro h2
        exact List.noConfusion h2
    refine ⟨hsel, hid, e₁, e₂, hsplit, ?_⟩
    intro q hq
    exact beq_eq_false_iff_ne.mp (hnone q hq)
  · intro hfind hne
    have hprim : select_active_target st targets = get_primary_target targets := by
      rcases htg : targets with _ | ⟨hd, tl⟩
      · exact absurd htg hne
      · rw [select_active_target]
        rw [htg] at hfind
        rw [hfind]
        intro h2
        exact List.noConfusion h2
    rcases get_primary_target_spec targets hne with ⟨hall, _⟩ |
      ⟨l₁, t, l₂, hsplit, _, hbefore, hafter, hsome⟩
    · rcases htg : targets with _ | ⟨hd, tl⟩
      · exact absurd htg hne
      · have h1 := area_pos_of_valid hd (hv hd (by rw [htg]; exact List.mem_cons_self hd tl))
        have h2 := hall hd (by rw [htg]; exact List.mem_cons_self hd tl)
        exact absurd h1 (not_lt.mpr h2)
    · exact ⟨l₁, t, l₂, hsplit, hbefore, hafter, by rw [hprim, hsome]⟩


/-- Witness for C8: two valid detections, neither matching active id 99;
the selection facts hold at this concrete input. -/
theorem claim_C8_selection_policy_witness :
    (([Target.mk (some 1) [0, 0, 2, 3], Target.mk (some 4) [0, 0, 3, 3]] : List Target) = [] →
      select_active_target (PTZState.mk 1 3 1 1 false (some 99))
        [Target.mk (some 1) [0, 0, 2, 3], Target.mk (some 4) [0, 0, 3, 3]] = none)
    ∧ (∀ p : Nat × Target, ([Target.mk (some 1) [0, 0, 2, 3],
          Target.mk (some 4) [0, 0, 3, 3]] : List Target).enum.find?
          (fun q => (PTZState.mk 1 3 1 1 false (some 99)).active_target_id ==
            some (identityOf q.1 q.2)) = some p →
        select_active_target (PTZState.mk 1 3 1 1 false (some 99))
          [Target.mk (some 1) [0, 0, 2, 3], Target.mk (some 4) [0, 0, 3, 3]] = some p.2
        ∧ (PTZState.mk 1 3 1 1 false (some 99)).active_target_id = some (identityOf p.1 p.2)
        ∧ ∃ e₁ e₂, ([Target.mk (some 1) [0, 0, 2, 3],
              Target.mk (some 4) [0, 0, 3, 3]] : List Target).enum = e₁ ++ p :: e₂ ∧
            ∀ q ∈ e₁, (PTZState.mk 1 3 1 1 false (some 99)).active_target_id ≠
              some (identityOf q.1 q.2))
    ∧ (([Target.mk (some 1) [0, 0, 2, 3], Target.mk (some 4) [0, 0, 3, 3]] : List Target).enum.find?
          (fun q => (PTZState.mk 1 3 1 1 false (some 99)).active_target_id ==
            some (identityOf q.1 q.2)) = none →
        ([Target.mk (some 1) [0, 0, 2, 3], Target.mk (some 4) [0, 0, 3, 3]] : List Target) ≠ [] →
        ∃ l₁ t l₂, ([Target.mk (some 1) [0, 0, 2, 3],
            Target.mk (some 4) [0, 0, 3, 3]] : List Target) = l₁ ++ t :: l₂
          ∧ (∀ u ∈ l₁, area u < area t) ∧ (∀ u ∈ l₂, area u ≤ area t)
          ∧ select_active_target (PTZState.mk 1 3 1 1 false (some 99))
              [Target.mk (some 1) [0, 0, 2, 3], Target.mk (some 4) [0, 0, 3, 3]] = some t) :=
  claim_C8_selection_policy (PTZState.mk 1 3 1 1 false (some 99))
    [Target.mk (some 1) [0, 0, 2, 3], Target.mk (some 4) [0, 0, 3, 3]]
    (by
      intro t ht
      rcases List.mem_cons.mp ht with h | h
      · exact ⟨0, 0, 2, 3, by rw [h], by norm_num, by norm_num⟩
      · rcases List.mem_cons.mp h with h2 | h2
        · exact ⟨0, 0, 3, 3, by rw [h2], by norm_num, by norm_num⟩
        · exact absurd h2 (List.not_mem_nil t))


theorem crop_slice_pos (n y z : Int) (hn : 1 ≤ n) :
    sliceLen n (max 0 (min (n - max 1 (min n y)) z))
      (max 0 (min (n - max 1 (min n y)) z) + max 1 (min n y)) ≠ 0 := by
  set cw := max 1 (min n y) with hcw
  set x1 := max 0 (min (n - cw) z) with hx1
  have h1 : 1 ≤ cw := le_max_left _ _
  have h2 : cw ≤ n := max_le hn (min_le_left _ _)
  have h3 : 0 ≤ x1 := le_max_left _ _
  have h4 : x1 ≤ n - cw := max_le (by omega) (min_le_left _ _)
  rw [sliceLen, min_eq_right (by omega : x1 + cw ≤ n), min_eq_right (by omega : x1 ≤ n)]
  have h5 : x1 + cw - x1 = cw := by ring
  rw [h5, max_eq_right (by omega : (0 : Int) ≤ cw)]
  omega

/-- C5 (amended): the crop engine passes the frame through unmodified when
force_wide is set, no target is active, or zoom ≤ 1.01; otherwise, for a
4-element bbox, the crop rectangle follows the claimed clamp formulas with
Python int() truncation (pyInt) in place of round. -/
theorem claim_C5_crop_geometry (zoom : ℚ) (fw : Bool) (w h : Int) (target : Option Target)
    (hw : 1 ≤ w) (hh : 1 ≤ h) :
    ((fw = true ∨ target = none ∨ zoom ≤ 101/100) →
      crop_and_zoom_rect zoom fw w h target = none)
    ∧ (∀ t : Target, ∀ a b c d : ℚ, target = some t → t.bbox = [a, b, c, d] → fw = false →
        ¬ zoom ≤ 101/100 →
        crop_and_zoom_rect zoom fw w h target =
          some (clampI (pyInt ((a + c) / 2 -
                  (clampI (pyInt ((w : ℚ) / zoom)) 1 w : ℚ) / 2)) 0
                (w - clampI (pyInt ((w : ℚ) / zoom)) 1 w),
              clampI (pyInt ((b + d) / 2 -
                  (clampI (pyInt ((h : ℚ) / zoom)) 1 h : ℚ) / 2)) 0
                (h - clampI (pyInt ((h : ℚ) / zoom)) 1 h),
              clampI (pyInt ((a + c) / 2 -
                  (clampI (pyInt ((w : ℚ) / zoom)) 1 w : ℚ) / 2)) 0
                (w - clampI (pyInt ((w : ℚ) / zoom)) 1 w) +
                clampI (pyInt ((w : ℚ) / zoom)) 1 w,
              clampI (pyInt ((b + d) / 2 -
                  (clampI (pyInt ((h : ℚ) / zoom)) 1 h : ℚ) / 2)) 0
                (h - clampI (pyInt ((h : ℚ) / zoom)) 1 h) +
                clampI (pyInt ((h : ℚ) / zoom)) 1 h)) := by
  constructor
  · intro hcond
    rcases target with _ | t
    · rw [crop_and_zoom_rect]
    · rcases hcond with hfw | hnone | hz
      · rw [crop_and_zoom_rect, if_pos (Or.inl hfw)]
      · exact Option.noConfusion hnone
      · rw [crop_and_zoom_rect, if_pos (Or.inr hz)]
  · intro t a b c d htgt hbb hfw hz
    subst htgt
    rw [crop_and_zoom_rect, hfw, hbb]
    rw [if_neg (by simp [hz])]
    rw [if_neg (by simp)]
    dsimp only [List.getD, List.getElem?_cons_zero, List.getElem?_cons_succ, Option.getD_some]
    rw [if_neg (not_or.mpr ⟨crop_slice_pos h (pyInt ((h : ℚ) / zoom)) _ hh,
      crop_slice_pos w (pyInt ((w : ℚ) / zoom)) _ hw⟩)]
    rfl


/-- Witness for C5 at the spec's end-to-end example: 640x480 frame, bbox
(270, 190, 370, 290), zoom 2.0, giving the crop (160, 120, 480, 360). -/
theorem claim_C5_crop_geometry_witness :
    (((false : Bool) = true ∨ (some (Target.mk none [270, 190, 370, 290]) : Option Target) = none
        ∨ (2 : ℚ) ≤ 101/100) →
      crop_and_zoom_rect 2 false 640 480 (some (Target.mk none [270, 190, 370, 290])) = none)
    ∧ (∀ t : Target, ∀ a b c d : ℚ,
        (some (Target.mk none [270, 190, 370, 290]) : Option Target) = some t →
        t.bbox = [a, b, c, d] → (false : Bool) = false → ¬ (2 : ℚ) ≤ 101/100 →
        crop_and_zoom_rect 2 false 640 480 (some (Target.mk none [270, 190, 370, 290])) =
          some (clampI (pyInt ((a + c) / 2 -
                  (clampI (pyInt ((640 : ℚ) / 2)) 1 640 : ℚ) / 2)) 0
                (640 - clampI (pyInt ((640 : ℚ) / 2)) 1 640),
              clampI (pyInt ((b + d) / 2 -
                  (clampI (pyInt ((480 : ℚ) / 2)) 1 480 : ℚ) / 2)) 0
                (480 - clampI (pyInt ((480 : ℚ) / 2)) 1 480),
              clampI (pyInt ((a + c) / 2 -
                  (clampI (pyInt ((640 : ℚ) / 2)) 1 640 : ℚ) / 2)) 0
                (640 - clampI (pyInt ((640 : ℚ) / 2)) 1 640) +
                clampI (pyInt ((640 : ℚ) / 2)) 1 640,
              clampI (pyInt ((b + d) / 2 -
                  (clampI (pyInt ((480 : ℚ) / 2)) 1 480 : ℚ) / 2)) 0
                (480 - clampI (pyInt ((480 : ℚ) / 2)) 1 480) +
                clampI (pyInt ((480 : ℚ) / 2)) 1 480))
    ∧ crop_and_zoom_rect 2 false 640 480 (some (Target.mk none [270, 190, 370, 290])) =
        some (160, 120, 480, 360) :=
  ⟨(claim_C5_crop_geometry 2 false 640 480 (some (Target.mk none [270, 190, 370, 290]))
      (by norm_num) (by norm_num)).1,
    (claim_C5_crop_geometry 2 false 640 480 (some (Target.mk none [270, 190, 370, 290]))
      (by norm_num) (by norm_num)).2,
    by norm_num [crop_and_zoom_rect, pyInt, sliceLen, List.getD]⟩

/-- Counterexample to C5 as stated: at zoom 1.5 on a 640-wide frame the
code truncates 640 / 1.5 to a 426-pixel crop width, while the claimed
round-based formula gives 427. -/
theorem claim_C5_counterexample :
    crop_and_zoom_rect (3/2) false 640 480 (some (Target.mk none [0, 0, 640, 480])) =
      some (107, 80, 533, 400)
    ∧ (533 - 107 : Int) = 426
    ∧ clampI (round ((640 : ℚ) / (3/2))) 1 640 = 427
    ∧ (426 : Int) ≠ 427 := by
  refine ⟨?_, by norm_num, ?_, by norm_num⟩
  · norm_num [crop_and_zoom_rect, pyInt, sliceLen, List.getD]
  · rw [round_eq]
    norm_num [clampI]

end RPiEdge
